import Mathlib

/-!
Shallow embedding of the frame-spooling and median-combination core of the
`hipercam` reduction toolkit (files `hipercam/spooler.py`,
`hipercam/scripts/averun.py`, `hipercam/scripts/rtplot.py`), together with
proofs checking the natural-language specification against it.

Pixel values are embedded as rationals; a 2-D numpy array is a list of rows.
Ordered mappings (Python `OrderedDict` / `MCCD` / `CCD` containers) are
association lists with string keys.  Fallible Python code is embedded in the
`Except PyErr` monad; a raised exception is an `Except.error` value.
-/

namespace Hipercam

/-- Python exceptions that the embedded code can raise. -/
inductive PyErr where
  | keyError (k : String)
  | hipercamError (msg : String)
  | attributeError (msg : String)
  | valueError (msg : String)
  | nameError (n : String)
  | notImplementedError (msg : String)
deriving DecidableEq, Repr

instance {ε α : Type} [DecidableEq ε] [DecidableEq α] : DecidableEq (Except ε α) :=
  fun x y =>
  match x, y with
  | .ok u, .ok v =>
    if h : u = v then .isTrue (by rw [h]) else .isFalse (by simp [h])
  | .error u, .error v =>
    if h : u = v then .isTrue (by rw [h]) else .isFalse (by simp [h])
  | .ok _, .error _ => .isFalse (by simp)
  | .error _, .ok _ => .isFalse (by simp)

/-- A 2-D pixel array (list of rows). -/
abbrev Arr := List (List ℚ)

/-- One window of a CCD: its pixel data (origin offsets play no role in the
combination code and are omitted). -/
structure Window where
  data : Arr
deriving DecidableEq, Repr

/-- One CCD: an ordered mapping from window label to `Window`, plus the
validity flag reported by `CCD.is_data()` (false for frames blanked by
NSKIP/NBLUE options). -/
structure CCD where
  wins : List (String × Window)
  is_data : Bool
deriving DecidableEq, Repr

/-- An `MCCD` (one full frame): ordered mapping from CCD label to `CCD`. -/
structure MCCD where
  ccds : List (String × CCD)
deriving DecidableEq, Repr

/-- Association-list lookup, embedding Python `d[k]` / `k in d` on ordered
dictionaries (first entry with the key wins). -/
def lookupA {α : Type} : List (String × α) → String → Option α
  | [], _ => none
  | (k', v) :: rest, k => if k' = k then some v else lookupA rest k

/-- The CCD labels of a frame, in order (Python `for cnam in mccd`). -/
def labels (f : MCCD) : List String := f.ccds.map Prod.fst

/-- Shape of a 2-D array: the list of row lengths (equal shapes in the numpy
sense are embedded as equal row-length lists). -/
def shape (a : Arr) : List Nat := a.map List.length

/-- Per-label window shapes of a CCD. -/
def ccdShapes (c : CCD) : List (String × List Nat) :=
  c.wins.map (fun p => (p.1, shape p.2.data))

/-- Per-label CCD window shapes of a frame; two frames have identical
CCD/window layout exactly when their `frameShapes` agree. -/
def frameShapes (f : MCCD) : List (String × List (String × List Nat)) :=
  f.ccds.map (fun p => (p.1, ccdShapes p.2))

/-- Embeds `numpy.median` on a 1-D array: sort, take the middle element for
odd length and the mean of the two middle elements for even length.
(The empty case is never reached by the embedded code.) -/
def npMedian (l : List ℚ) : ℚ :=
  let s := l.insertionSort (· ≤ ·)
  if l.length % 2 = 1 then s.getD (l.length / 2) 0
  else (s.getD (l.length / 2 - 1) 0 + s.getD (l.length / 2) 0) / 2

/-- Embeds `numpy.stack`: all arrays must share a shape, otherwise a
`ValueError` is raised; stacking an empty list is also a `ValueError`. -/
def npStack (arrs : List Arr) : Except PyErr (List Arr) :=
  match arrs with
  | [] => .error (.valueError "need at least one array to stack")
  | a :: rest =>
    if rest.all (fun b => shape b == shape a) then .ok (a :: rest)
    else .error (.valueError "all input arrays must have the same shape")

/-- Embeds `numpy.median(arr3d, axis=0)` on a stack of equal-shape 2-D
arrays: the element-wise median across the stack axis. -/
def npMedianAxis0 (arrs : List Arr) : Arr :=
  match arrs with
  | [] => []
  | a :: _ =>
    a.mapIdx (fun i row =>
      row.mapIdx (fun j _ =>
        npMedian (arrs.map (fun b => (b.getD i []).getD j 0))))

/-- Element-wise subtraction of two equal-shape 2-D arrays. -/
def subArr (a b : Arr) : Arr :=
  List.zipWith (fun ra rb => List.zipWith (fun x y => x - y) ra rb) a b

/-- Modelled from the spec: in-place CCD subtraction `ccd -= bias[cnam]`
(the `CCD.__isub__` operator lives in the excluded format layer); the spec
prescribes pixel-wise subtraction of the bias, window by window. -/
def subCCD (c b : CCD) : CCD :=
  { c with wins := c.wins.map (fun p =>
      (p.1, match lookupA b.wins p.1 with
            | some bw => Window.mk (subArr p.2.data bw.data)
            | none => p.2)) }

/-- Sequential mapping of a fallible operation over a list, stopping at the
first raised exception — the effect of a Python `for` loop building a list.
(`List.mapM` specialised to `Except` by structural recursion.) -/
def mapE {α β : Type} (g : α → Except PyErr β) : List α → Except PyErr (List β)
  | [] => .ok []
  | a :: l => do
    let b ← g a
    let bs ← mapE g l
    .ok (b :: bs)

/-- Sequential fold of a fallible operation over a list, stopping at the
first raised exception — the effect of a Python `for` loop updating a
state.  (`List.foldlM` specialised to `Except` by structural recursion.) -/
def foldE {σ α : Type} (g : σ → α → Except PyErr σ) : σ → List α → Except PyErr σ
  | s, [] => .ok s
  | s, a :: l => do
    let s2 ← g s a
    foldE g s2 l

/-! ### The retry / poll policy -/

/-- The three possible outcomes of one poll attempt in `rtplot`'s acquisition
loop: break out of the loop, sleep-and-retry (recording the slept duration
and the updated cumulative wait), or proceed with the frame (recording the
cumulative wait the loop continues with). -/
inductive PollOutcome where
  | give_up (total_time : ℚ)
  | try_again (sleep : ℚ) (total_time : ℚ)
  | proceed (total_time : ℚ)
deriving DecidableEq, Repr

/-- Embeds the poll step of `rtplot` (rtplot.py lines 401-423): a `None`
read from a server source either gives up (when `tmax < total_time + twait`)
or sleeps `twait` seconds and retries with `total_time + twait`; a real
frame from a server source resets the cumulative wait to 0; non-server
sources fall through with `total_time` untouched.  The frame's payload plays
no role in the decision, so only its `None`-ness is passed. -/
def rtplot_poll (server frame_is_none : Bool) (twait tmax total_time : ℚ) :
    PollOutcome :=
  if server && frame_is_none then
    if tmax < total_time + twait then .give_up total_time
    else .try_again twait (total_time + twait)
  else if server then .proceed 0
  else .proceed total_time

/-- Modelled from the spec: `hcam.hang_about(mccd, twait, tmax, total_time)`
(called by averun.py line 151 but defined outside the provided sources)
returns `(give_up, try_again, total_time)`; per spec section 4.3 a real frame
resets the cumulative wait to 0 with both flags false, a `None` read gives up
when `tmax < total_time + twait` and otherwise sleeps and retries with the
cumulative wait increased by `twait`. -/
def hang_about (mccd : Option MCCD) (twait tmax total_time : ℚ) :
    Bool × Bool × ℚ :=
  match mccd with
  | some _ => (false, false, 0)
  | none =>
    if tmax < total_time + twait then (true, false, total_time)
    else (false, true, total_time + twait)

/-! ### The averun accumulation loop (averun.py lines 139-166)

The loop is embedded for the server/local sources (`source` ending in `'s'`
or `'l'`, where `server_or_local` is true and `first`/`last` are defined);
`yields` is the sequence of values produced by the spool, `none` embedding
the Python `None` sentinel for a not-yet-available frame.  The result is the
list of accumulated frames together with the final value of the loop
variable `mccd` (`none` when the loop body never ran, `some y` when the last
processed yield was `y`). -/

/-- One pass of the accumulation loop, carrying the accumulated frames, the
frame counter `nframe`, the cumulative wait `total_time` and the current
value of the loop variable `mccd`. -/
def averun_go (twait tmax : ℚ) (last : Nat) :
    List (Option MCCD) → List MCCD → Nat → ℚ → Option (Option MCCD) →
    List MCCD × Option (Option MCCD)
  | [], mccds, _, _, lv => (mccds, lv)
  | y :: ys, mccds, nframe, total_time, _ =>
    let r := hang_about y twait tmax total_time
    if r.1 then (mccds, some y)
    else if r.2.1 then averun_go twait tmax last ys mccds nframe r.2.2 (some y)
    else
      match y with
      | some f =>
        if nframe ≥ last then (mccds ++ [f], some y)
        else averun_go twait tmax last ys (mccds ++ [f]) (nframe + 1) r.2.2 (some y)
      | none => (mccds, some y)

/-- The accumulation loop of `averun`, started with `nframe = first`,
`total_time = 0` and the loop variable unbound.  (The `y = none`
fall-through branch of `averun_go` is unreachable: `hang_about` always sets
`give_up` or `try_again` on a `None` read.) -/
def averun_loop (twait tmax : ℚ) (first last : Nat) (yields : List (Option MCCD)) :
    List MCCD × Option (Option MCCD) :=
  averun_go twait tmax last yields [] first 0 none

/-! ### The averun combination phase (averun.py lines 168-212) -/

/-- Embeds averun.py lines 168-174: raise `HipercamError('no frames read')`
when nothing was accumulated, otherwise take `template = mccd.copy()` from
the loop variable `mccd` — a `NameError` if the loop never ran, an
`AttributeError` if the loop variable holds the `None` sentinel. -/
def template_of (mccds : List MCCD) (lastVar : Option (Option MCCD)) :
    Except PyErr MCCD :=
  if mccds.length = 0 then .error (.hipercamError "no frames read")
  else
    match lastVar with
    | none => .error (.nameError "mccd")
    | some none => .error (.attributeError "NoneType object has no attribute copy")
    | some (some f) => .ok f

/-- The per-CCD step of the bias crop: select the bias CCD of the template
label and, within it, the bias window of each template window label. -/
def cropEntry (b : MCCD) (p : String × CCD) : Except PyErr (String × CCD) := do
  let bc ← match lookupA b.ccds p.1 with
    | some bc => Except.ok bc
    | none => Except.error (PyErr.keyError p.1)
  let wins ← mapE (fun q => do
    let bw ← match lookupA bc.wins q.1 with
      | some bw => Except.ok bw
      | none => Except.error (PyErr.keyError q.1)
    Except.ok (q.1, bw)) p.2.wins
  Except.ok (p.1, CCD.mk wins bc.is_data)

/-- Modelled from the spec: `bias.crop(template)` (`MCCD.crop` lives in the
excluded format layer); per spec section 4.4 step 4 the bias is aligned to
the template's CCD/window layout, selecting the bias window for each
template CCD label and window label and raising if one is missing. -/
def cropFrame (b : MCCD) (template : MCCD) : Except PyErr MCCD := do
  let ccds ← mapE (cropEntry b) template.ccds
  Except.ok (MCCD.mk ccds)

/-- Embeds `ccds[cnam].append(ccd)` on the per-CCD buffer dictionary: a
`KeyError` when `cnam` is not a key, otherwise the value list for `cnam` is
extended in place. -/
def dictAppend (d : List (String × List CCD)) (k : String) (v : CCD) :
    Except PyErr (List (String × List CCD)) :=
  match d with
  | [] => .error (.keyError k)
  | (k', vs) :: rest =>
    if k' = k then .ok ((k', vs ++ [v]) :: rest)
      else do
      let r ← dictAppend rest k v
      .ok ((k', vs) :: r)

/-- The body of the collection loop (averun.py lines 183-187) for one
`(cnam, ccd)` item of a frame: skip it when `is_data()` is false, otherwise
subtract the (cropped) bias CCD when a bias was given and append the CCD to
its label's buffer. -/
def collectStep (bias : Option MCCD) (d : List (String × List CCD))
    (p : String × CCD) : Except PyErr (List (String × List CCD)) :=
  if p.2.is_data then do
    let c ← match bias with
      | none => Except.ok p.2
      | some b =>
        match lookupA b.ccds p.1 with
        | some bc => Except.ok (subCCD p.2 bc)
        | none => Except.error (.keyError p.1)
    dictAppend d p.1 c
  else Except.ok d

/-- Embeds averun.py lines 180-187: initialise `ccds` with an empty list per
template CCD label, then run `collectStep` over every CCD of every
accumulated frame, in order. -/
def collectCCDs (template : MCCD) (mccds : List MCCD) (bias : Option MCCD) :
    Except PyErr (List (String × List CCD)) :=
  foldE (fun d mccd => foldE (collectStep bias) d mccd.ccds)
    (template.ccds.map (fun p => (p.1, ([] : List CCD)))) mccds

/-- Embeds averun.py lines 189-194: walk the template CCD labels in order
and raise `HipercamError('found no valid frames for CCD ...')` at the first
label whose buffer is empty. -/
def checkValid (d : List (String × List CCD)) : List String → Except PyErr Unit
  | [] => .ok ()
  | c :: cs =>
    match lookupA d c with
    | none => .error (.keyError c)
    | some l =>
      if l.length = 0 then
        .error (.hipercamError ("found no valid frames for CCD " ++ c))
      else checkValid d cs

/-- The per-window step of the median loop (averun.py lines 204-208):
gather the buffered CCDs' data arrays for this window label, stack them and
take the element-wise median. -/
def combineWindow (contribs : List CCD) (q : String × Window) :
    Except PyErr (String × Window) := do
  let arrs ← mapE (fun c =>
    match lookupA c.wins q.1 with
    | some w => Except.ok w.data
    | none => Except.error (PyErr.keyError q.1)) contribs
  let stacked ← npStack arrs
  Except.ok (q.1, Window.mk (npMedianAxis0 stacked))

/-- The per-CCD step of the median loop: run `combineWindow` over the
template CCD's windows against its buffered contributors. -/
def combineCCD (d : List (String × List CCD)) (p : String × CCD) :
    Except PyErr (String × CCD) := do
  let contribs ← match lookupA d p.1 with
    | some l => Except.ok l
    | none => Except.error (PyErr.keyError p.1)
  let wins ← mapE (combineWindow contribs) p.2.wins
  Except.ok (p.1, CCD.mk wins p.2.is_data)

/-- Embeds averun.py lines 196-208: run `combineCCD` over the template's
CCDs, replacing every window's data with the element-wise median. -/
def averunCombine (template : MCCD) (d : List (String × List CCD)) :
    Except PyErr MCCD := do
  let ccds ← mapE (combineCCD d) template.ccds
  Except.ok (MCCD.mk ccds)

/-- Embeds averun.py lines 176-178: when a bias frame was supplied, crop it
to the template's layout once; otherwise keep no bias. -/
def averun_bias (bias : Option MCCD) (template : MCCD) :
    Except PyErr (Option MCCD) :=
  match bias with
  | none => Except.ok none
  | some b => (cropFrame b template).map some

/-- Embeds averun.py lines 168-211 (everything after the accumulation loop,
up to and including the computation of the frame passed to
`template.write`): a returned `.ok` value is the frame written to the output
file; a `.error` value is an exception raised before any write. -/
def averun_post (mccds : List MCCD) (lastVar : Option (Option MCCD))
    (bias : Option MCCD) : Except PyErr MCCD := do
  let template ← template_of mccds lastVar
  let bias2 ← averun_bias bias template
  let d ← collectCCDs template mccds bias2
  checkValid d (labels template)
  averunCombine template d

/-- The full embedded `averun` body for server/local sources: run the
accumulation loop on the spool's yields, then the combination phase.  A
`.ok` result is the frame written to the output file. -/
def averun_run (twait tmax : ℚ) (first last : Nat)
    (yields : List (Option MCCD)) (bias : Option MCCD) : Except PyErr MCCD :=
  let s := averun_loop twait tmax first last yields
  averun_post s.1 s.2 bias

/-- The template actually used by `averun` (loop followed by averun.py lines
168-174 only). -/
def averun_template (twait tmax : ℚ) (first last : Nat)
    (yields : List (Option MCCD)) : Except PyErr MCCD :=
  let s := averun_loop twait tmax first last yields
  template_of s.1 s.2

/-! ### The file-list spool (spooler.py lines 134-160) -/

/-- Embeds Python `fname.startswith('#')` on a line of the list file. -/
def startsWithHash (s : String) : Bool :=
  match s.data with
  | c :: _ => c == '#'
  | [] => false

/-- Embeds `HcamListSpool.__next__` (spooler.py lines 155-160) on the state
of the open list file, represented by its remaining lines.  The method scans
for the next line not starting with `#` and raises `StopIteration` (here:
`none`) when the lines run out; having found a non-comment line it falls off
the end of the method body without a `return` statement, so the value handed
to the iteration is the Python `None` (here: the first component
`(none : Option MCCD)`), not a deserialized frame. -/
def HcamListSpool_next : List String → Option (Option MCCD × List String)
  | [] => none
  | l :: ls => if startsWithHash l then HcamListSpool_next ls else some (none, ls)

/-- Runs `HcamListSpool_next` to exhaustion (with fuel, one unit per line)
and returns the sequence of values the spool iteration produces. -/
def HcamListSpool_drain : Nat → List String → List (Option MCCD)
  | 0, _ => []
  | fuel + 1, lines =>
    match HcamListSpool_next lines with
    | none => []
    | some (v, rest) => v :: HcamListSpool_drain fuel rest

/-- The produce-next behaviour the specification describes for the file-list
spool (spec section 4.1 variant 3): read the next non-comment line and
return the frame deserialized from the file it names, for an abstract
black-box deserializer `readFrame`. -/
def listSpoolNextSpec (readFrame : String → MCCD) :
    List String → Option (Option MCCD × List String)
  | [] => none
  | l :: ls =>
    if startsWithHash l then listSpoolNextSpec readFrame ls
    else some (some (readFrame l), ls)

/-! ### Source resolution (spooler.py lines 193-257 and 259-298) -/

/-- The spool variant constructed by `data_source`, carrying its constructor
arguments. -/
inductive SpoolKind where
  | ucamServSpool (run : String) (first : Nat) (flt : Bool)
  | ucamDiskSpool (run : String) (first : Nat) (flt : Bool)
  | hcamListSpool (lname : String)
  | hcamDiskSpool (run : String) (first : Nat) (flt : Bool)
deriving DecidableEq, Repr

/-- Embeds `data_source(inst, resource, flist, server, first, flt)`
(spooler.py lines 193-257).  The first component of the result lists the
files opened by spooler.py code itself during the call: the only such open
is `open(lname)` in `HcamListSpool.__init__` (line 150); the other variants
delegate construction to the external `ucam.Rdata` / `hcam.Rdata` readers,
whose own effects lie outside the embedded sources.  The second component is
the constructed spool or the exception raised. -/
def data_source (inst resource : String) (flist server : Bool)
    (first : Nat) (flt : Bool) : List String × Except PyErr SpoolKind :=
  if inst = "ULTRA" then
    if flist then
      ([], .error (.notImplementedError
        "spooler.data_source: file lists have not been implemented for inst = \x22ULTRA\x22"))
    else if server then ([], .ok (.ucamServSpool resource first flt))
    else ([], .ok (.ucamDiskSpool resource first flt))
  else if inst = "HIPER" then
    if flist then ([resource], .ok (.hcamListSpool resource))
    else if server then
      ([], .error (.notImplementedError
        "spooler.data_source: HiPERCAM server not implemented yet"))
    else ([], .ok (.hcamDiskSpool resource first flt))
  else
    ([], .error (.valueError
      ("spooler.data_source: inst = " ++ inst ++ " not recognised")))

/-- An element of the sequence handed to a Python `dict`/`OrderedDict`
constructor: a `(string-label, dimension-pair)` tuple, a bare string, or a
tuple of two integers.  (The embedded call sites contain no other element
forms and no duplicate keys.) -/
inductive DictElem where
  | kv (k : String) (v : Nat × Nat)
  | str (s : String)
  | intPair (a b : Nat)
deriving DecidableEq, Repr

/-- A key of the resulting Python dictionary (string or integer). -/
inductive PyKey where
  | s (v : String)
  | i (v : Nat)
deriving DecidableEq, Repr

/-- A value of the resulting Python dictionary: a dimension pair, an
integer, or a one-character string. -/
inductive PyDVal where
  | dims (v : Nat × Nat)
  | i (v : Nat)
  | s (v : String)
deriving DecidableEq, Repr

/-- Embeds Python `OrderedDict(seq)` construction semantics: the elements
are consumed left to right and each must be an iterable of length 2 — a
2-tuple contributes a key/value entry, a string of length 2 contributes its
two characters, and any other string raises
`ValueError: dictionary update sequence element has length ...`. -/
def pyDictSeq : List DictElem → Except PyErr (List (PyKey × PyDVal))
  | [] => .ok []
  | e :: rest => do
    let entry ← match e with
      | .kv k v => Except.ok (PyKey.s k, PyDVal.dims v)
      | .intPair a b => Except.ok (PyKey.i a, PyDVal.i b)
      | .str s =>
        if s.length = 2 then
          Except.ok (PyKey.s (String.mk [s.data.getD 0 ' ']),
                     PyDVal.s (String.mk [s.data.getD 1 ' ']))
        else
          Except.error (.valueError
            ("dictionary update sequence element has length " ++
              toString s.length ++ "; 2 is required"))
    let d ← pyDictSeq rest
    Except.ok (entry :: d)

/-- Embeds the `inst == 'ULTRA'`, `flist == False` branch of `get_ccd_pars`
(spooler.py lines 281-298), with the instrument string reported by the
external `ucam.Rhead(resource)` header reader passed in as
`rheadInstrument`.  The ULTRACAM arm builds an `OrderedDict` from a tuple of
three label/dimension pairs; the ULTRASPEC arm passes the bare 2-tuple
`('1', (1056, 1072))` itself as the constructor's sequence, so its elements
are the string `'1'` and the pair `(1056, 1072)`. -/
def get_ccd_pars_ULTRA (rheadInstrument : String) :
    Except PyErr (List (PyKey × PyDVal)) :=
  if rheadInstrument = "ULTRACAM" then
    pyDictSeq [.kv "r" (1080, 1032), .kv "g" (1080, 1032), .kv "b" (1080, 1032)]
  else if rheadInstrument = "ULTRASPEC" then
    pyDictSeq [.str "1", .intPair 1056 1072]
  else
    .error (.valueError
      ("spooler.get_ccd_pars: instrument " ++ rheadInstrument ++ " not supported"))

/-! ### Declarative descriptions of the combination phase

The following definitions restate, directly in the spec's terms, what the
imperative loops of averun.py are claimed to compute; the theorems below
relate them to the loop embeddings. -/

/-- The bias adjustment applied to a CCD on its way into the combination
set: nothing without a bias, pixel-wise subtraction of the bias CCD of the
same label otherwise (the missing-label fallback is unreachable under the
layout hypotheses of the theorems). -/
def biasAdjust (bias : Option MCCD) (cnam : String) (c : CCD) : CCD :=
  match bias with
  | none => c
  | some b =>
    match lookupA b.ccds cnam with
    | some bc => subCCD c bc
    | none => c

/-- The combination set of CCD label `cnam` (spec section 4.4 step 5): from
each accumulated frame in order, its CCD of that label when present and
valid (`is_data()` true), bias-adjusted. -/
def validCCDs (bias : Option MCCD) (mccds : List MCCD) (cnam : String) :
    List CCD :=
  mccds.filterMap (fun f =>
    match lookupA f.ccds cnam with
    | some c => if c.is_data then some (biasAdjust bias cnam c) else none
    | none => none)

/-- The contribution of one frame's CCD items to the buffer of label `c`:
the valid entries carrying that label, bias-adjusted, in item order. -/
def frameContribs (bias : Option MCCD) (cl : List (String × CCD))
    (c : String) : List CCD :=
  cl.filterMap (fun p =>
    if p.1 = c ∧ p.2.is_data = true then some (biasAdjust bias p.1 p.2)
    else none)

/-- The per-CCD buffer dictionary that the collection loop is claimed to
build: one entry per template CCD label, holding the concatenated per-frame
contributions. -/
def collectPure (template : MCCD) (mccds : List MCCD) (bias : Option MCCD) :
    List (String × List CCD) :=
  template.ccds.map
    (fun p => (p.1, (mccds.map (fun f => frameContribs bias f.ccds p.1)).flatten))

/-- The frame the combination loop is claimed to produce: the template with
every window's data replaced by the element-wise median of the buffered
CCDs' window data. -/
def combinePure (template : MCCD) (d : List (String × List CCD)) : MCCD :=
  MCCD.mk (template.ccds.map (fun p =>
    (p.1, CCD.mk (p.2.wins.map (fun q =>
        (q.1, Window.mk (npMedianAxis0
          (((lookupA d p.1).getD []).map
            (fun c => ((lookupA c.wins q.1).getD (Window.mk [])).data))))))
      p.2.is_data)))

/-- The bias frame the crop step is claimed to produce when the bias layout
matches the template: the template's labels and window labels, with the
bias's data. -/
def cropPure (b t : MCCD) : MCCD :=
  MCCD.mk (t.ccds.map (fun p =>
    let bc := (lookupA b.ccds p.1).getD (CCD.mk [] true)
    (p.1, CCD.mk
      (p.2.wins.map (fun q => (q.1, (lookupA bc.wins q.1).getD (Window.mk []))))
      bc.is_data)))

/-- The stack of pixel arrays that the output window `(cnam, wnam)` is
claimed to be the median of: the window of that label from each member of
the CCD's combination set. -/
def windowDataStack (bias : Option MCCD) (mccds : List MCCD)
    (cnam wnam : String) : List Arr :=
  (validCCDs bias mccds cnam).map
    (fun c => ((lookupA c.wins wnam).getD (Window.mk [])).data)

/-! ### Concrete fixtures used by the witnesses and counterexamples -/

/-- A 2-by-2 pixel window. -/
def exWin (a b c d : ℚ) : Window := Window.mk [[a, b], [c, d]]

/-- A one-window CCD (window label `"E"`) with validity flag `v`. -/
def exCCD (a b c d : ℚ) (v : Bool) : CCD := CCD.mk [("E", exWin a b c d)] v

/-- Frame 1 of the fixtures: two CCDs (`"1"`, `"2"`), fully valid. -/
def exF1 : MCCD :=
  MCCD.mk [("1", exCCD 1 2 3 4 true), ("2", exCCD 10 0 0 0 true)]

/-- Frame 2 of the fixtures: CCD `"2"` blanked (`is_data()` false). -/
def exF2 : MCCD :=
  MCCD.mk [("1", exCCD 2 3 4 5 true), ("2", exCCD 20 0 0 0 false)]

/-- Frame 3 of the fixtures: fully valid. -/
def exF3 : MCCD :=
  MCCD.mk [("1", exCCD 7 8 9 10 true), ("2", exCCD 70 0 0 0 true)]

/-- A frame whose CCD `"2"` is invalid; as the only accumulated frame it
leaves CCD `"2"` with zero valid contributors. -/
def exFI : MCCD :=
  MCCD.mk [("1", exCCD 1 2 3 4 true), ("2", exCCD 10 0 0 0 false)]

/-! ### Basic lemmas -/

@[simp]
theorem ok_bind {α β : Type} (a : α) (f : α → Except PyErr β) :
    (Except.ok a >>= f) = f a := rfl

@[simp]
theorem error_bind {α β : Type} (e : PyErr) (f : α → Except PyErr β) :
    ((Except.error e : Except PyErr α) >>= f) = Except.error e := rfl

theorem getLastD_of_ne_nil {α : Type} (l : List α) (d₁ d₂ : α) (h : l ≠ []) :
    l.getLastD d₁ = l.getLastD d₂ := by
  cases l with
  | nil => exact absurd rfl h
  | cons a l => rw [List.getLastD_cons, List.getLastD_cons]

/-! ### C4: the retry / poll policy -/

/-- C4: for every poll attempt with state `(twait, tmax, total_time)`: a
sentinel read with `total_time + twait > tmax` gives up (terminal,
non-error break); a sentinel read within the bound sleeps `twait` seconds
and retries with `total_time + twait`; a real frame resets the cumulative
wait to 0 regardless of its prior value. -/
theorem rtplot_poll_policy (twait tmax total_time : ℚ) :
    (tmax < total_time + twait →
      rtplot_poll true true twait tmax total_time =
        PollOutcome.give_up total_time) ∧
    (total_time + twait ≤ tmax →
      rtplot_poll true true twait tmax total_time =
        PollOutcome.try_again twait (total_time + twait)) ∧
    rtplot_poll true false twait tmax total_time = PollOutcome.proceed 0 := by
  refine ⟨fun h => ?_, fun h => ?_, ?_⟩
  · simp [rtplot_poll, h]
  · simp [rtplot_poll, not_lt.mpr h]
  · simp [rtplot_poll]

/-- Witness for C4 at `twait = 1`, `tmax = 3`: with 3 seconds already
waited the policy gives up (3 + 1 > 3); with 2 it waits again reaching 3;
a real frame resets an accumulated wait of 7 to 0. -/
theorem rtplot_poll_policy_witness :
    rtplot_poll true true 1 3 3 = PollOutcome.give_up 3 ∧
    rtplot_poll true true 1 3 2 = PollOutcome.try_again 1 (2 + 1) ∧
    rtplot_poll true false 1 3 7 = PollOutcome.proceed 0 :=
  ⟨(rtplot_poll_policy 1 3 3).1 (by norm_num),
   (rtplot_poll_policy 1 3 2).2.1 (by norm_num),
   (rtplot_poll_policy 1 3 7).2.2⟩

/-! ### C7: zero accumulated frames -/

/-- C7: whenever the accumulation loop of `averun` ends with zero frames
accumulated, the run fails with `HipercamError('no frames read')`; the
error is raised before the output write is reached (an `.ok` result is the
only way a write happens in the embedding). -/
theorem averun_zero_frames_error (twait tmax : ℚ) (first last : Nat)
    (yields : List (Option MCCD)) (bias : Option MCCD)
    (h : (averun_loop twait tmax first last yields).1 = []) :
    averun_run twait tmax first last yields bias =
      Except.error (.hipercamError "no frames read") := by
  simp [averun_run, averun_post, template_of, h]

/-- Witness for C7: a server run whose source never produces a frame
(four sentinel reads, then give-up) accumulates nothing and fails with
`no frames read`. -/
theorem averun_zero_frames_error_witness :
    (averun_loop 1 3 1 5 [none, none, none, none]).1 = [] ∧
    averun_run 1 3 1 5 [none, none, none, none] none =
      Except.error (.hipercamError "no frames read") :=
  ⟨by norm_num [averun_loop, averun_go, hang_about],
   averun_zero_frames_error 1 3 1 5 [none, none, none, none] none
     (by norm_num [averun_loop, averun_go, hang_about])⟩

/-! ### C5: give-up after at least one accumulated frame -/

/-- C5 (code bug): with one frame accumulated and the retry policy then
giving up (`twait = 1`, `tmax = 3`, four sentinel reads), `averun` does not
proceed to combine the accumulated frames — after `break` the loop variable
`mccd` still holds the `None` sentinel that triggered the give-up, so
`template = mccd.copy()` (averun.py line 174) raises `AttributeError`
instead, and nothing is written. -/
theorem averun_giveup_crash :
    averun_run 1 3 1 5 [some exF1, none, none, none, none] none =
      Except.error (.attributeError "NoneType object has no attribute copy") := by
  norm_num [averun_run, averun_loop, averun_go, hang_about, averun_post,
    template_of]

/-! ### C3: the file-list spool -/

/-- C3 (code bug): `HcamListSpool.__next__` advances past comment lines and
raises `StopIteration` when the lines are exhausted, but the method body has
no `return` statement after the scan, so every produced value is the Python
`None`, never the frame deserialized from the named file.  On a list with
2 data lines and 1 interleaved comment line, exactly 2 items are produced,
but both are `None`. -/
theorem hcamListSpool_yields_none :
    HcamListSpool_next ["a.hcm", "# comment", "b.hcm"] =
      some (none, ["# comment", "b.hcm"]) ∧
    HcamListSpool_drain 3 ["a.hcm", "# comment", "b.hcm"] = [none, none] := by
  decide

/-! ### C10: get_ccd_pars for ULTRASPEC -/

/-- C10 (code bug): for an ULTRA resource whose header reports ULTRASPEC,
`get_ccd_pars` passes the bare tuple `('1', (1056, 1072))` as the
`OrderedDict` constructor's element sequence, so the constructor sees the
length-1 string `'1'` as its first element and raises `ValueError` instead
of returning the single-entry mapping `'1' -> (1056, 1072)`. -/
theorem get_ccd_pars_ultraspec_raises :
    get_ccd_pars_ULTRA "ULTRASPEC" =
      Except.error (.valueError
        "dictionary update sequence element has length 1; 2 is required") ∧
    get_ccd_pars_ULTRA "ULTRASPEC" ≠
      Except.ok [(PyKey.s "1", PyDVal.dims (1056, 1072))] := by
  decide

/-! ### C9: data_source as a factory -/

/-- C9 (counterexample): constructing the file-list spool through
`data_source('HIPER', resource, flist=True, ...)` acquires a file handle at
construction time — `HcamListSpool.__init__` runs `open(lname)`
(spooler.py line 150) — refuting the claim that no file handle is acquired
before iteration. -/
theorem data_source_acquires_on_construction :
    (data_source "HIPER" "files.lis" true false 1 false).2 =
      Except.ok (SpoolKind.hcamListSpool "files.lis") ∧
    (data_source "HIPER" "files.lis" true false 1 false).1 = ["files.lis"] := by
  decide

/-- C9 (amended): `data_source` validates before constructing — file-list
spooling for ULTRA, server access for HIPER and unsupported instruments are
rejected with nothing acquired — and on success constructs the matching
spool variant; however the file-list variant opens its list file during
construction (the disk/server variants delegate to external readers whose
construction-time effects are outside the embedded sources). -/
theorem data_source_factory (inst resource : String) (flist server : Bool)
    (first : Nat) (flt : Bool) :
    (inst = "ULTRA" → flist = true →
      data_source inst resource flist server first flt =
        ([], Except.error (.notImplementedError
          "spooler.data_source: file lists have not been implemented for inst = \x22ULTRA\x22"))) ∧
    (inst = "ULTRA" → flist = false → server = true →
      data_source inst resource flist server first flt =
        ([], Except.ok (SpoolKind.ucamServSpool resource first flt))) ∧
    (inst = "ULTRA" → flist = false → server = false →
      data_source inst resource flist server first flt =
        ([], Except.ok (SpoolKind.ucamDiskSpool resource first flt))) ∧
    (inst = "HIPER" → flist = true →
      data_source inst resource flist server first flt =
        ([resource], Except.ok (SpoolKind.hcamListSpool resource))) ∧
    (inst = "HIPER" → flist = false → server = true →
      data_source inst resource flist server first flt =
        ([], Except.error (.notImplementedError
          "spooler.data_source: HiPERCAM server not implemented yet"))) ∧
    (inst = "HIPER" → flist = false → server = false →
      data_source inst resource flist server first flt =
        ([], Except.ok (SpoolKind.hcamDiskSpool resource first flt))) ∧
    (inst ≠ "ULTRA" → inst ≠ "HIPER" →
      data_source inst resource flist server first flt =
        ([], Except.error (.valueError
          ("spooler.data_source: inst = " ++ inst ++ " not recognised")))) := by
  refine ⟨?_, ?_, ?_, ?_, ?_, ?_, ?_⟩ <;> intros <;> subst_vars <;>
    simp_all [data_source]

/-- Witness for C9's amended theorem: the three rejected configurations
fail with nothing acquired, and an accepted disk configuration constructs
the matching variant with nothing acquired by the factory itself. -/
theorem data_source_factory_witness :
    data_source "ULTRA" "run003" true false 1 false =
      ([], Except.error (.notImplementedError
        "spooler.data_source: file lists have not been implemented for inst = \x22ULTRA\x22")) ∧
    data_source "HIPER" "run003" false true 1 false =
      ([], Except.error (.notImplementedError
        "spooler.data_source: HiPERCAM server not implemented yet")) ∧
    data_source "XYZ" "run003" false false 1 false =
      ([], Except.error (.valueError
        ("spooler.data_source: inst = " ++ "XYZ" ++ " not recognised"))) ∧
    data_source "ULTRA" "run003" false false 1 false =
      ([], Except.ok (SpoolKind.ucamDiskSpool "run003" 1 false)) :=
  ⟨(data_source_factory "ULTRA" "run003" true false 1 false).1 rfl rfl,
   (data_source_factory "HIPER" "run003" false true 1 false).2.2.2.2.1 rfl rfl rfl,
   (data_source_factory "XYZ" "run003" false false 1 false).2.2.2.2.2.2
     (by decide) (by decide),
   (data_source_factory "ULTRA" "run003" false false 1 false).2.2.1 rfl rfl rfl⟩

/-! ### C2: the structural template -/

/-- On a spool that yields only real frames, the accumulation loop gathers
the first `last + 1 - nframe` of them and leaves the loop variable holding
the last frame gathered. -/
theorem averun_go_all_some (twait tmax : ℚ) (last : Nat) (fs : List MCCD) :
    ∀ (acc : List MCCD) (nframe : Nat) (t : ℚ) (lv : Option (Option MCCD)),
      nframe ≤ last →
      averun_go twait tmax last (fs.map some) acc nframe t lv =
        (acc ++ fs.take (last + 1 - nframe),
          if fs.isEmpty then lv
          else some (some ((fs.take (last + 1 - nframe)).getLastD (MCCD.mk [])))) := by
  induction fs with
  | nil => intro acc nframe t lv _; simp [averun_go]
  | cons f fs ih =>
    intro acc nframe t lv h
    rw [List.map_cons, averun_go]
    simp only [hang_about]
    by_cases hn : nframe ≥ last
    · have h1 : last + 1 - nframe = 1 := by omega
      simp [hn, h1, List.getLastD_cons]
    · have h2 : last + 1 - nframe = (last + 1 - (nframe + 1)) + 1 := by omega
      simp only [if_neg hn]
      rw [ih (acc ++ [f]) (nframe + 1) 0 (some (some f)) (by omega), h2]
      rcases fs with _ | ⟨g, fs⟩
      · simp [List.getLastD_cons]
      · have hm : last + 1 - (nframe + 1) ≠ 0 := by omega
        have htk : (g :: fs).take (last + 1 - (nframe + 1)) ≠ [] := by
          rw [Ne, List.take_eq_nil_iff, not_or]
          exact ⟨hm, by simp⟩
        rw [List.take_succ_cons, List.getLastD_cons,
          if_neg (by simp), if_neg (by simp),
          getLastD_of_ne_nil _ (MCCD.mk []) f htk]
        simp [List.append_assoc]

/-- C2 (amended): the structural template whose windows are overwritten
with the medians is a copy of the final value of the loop variable — the
**last** accumulated frame when the loop ends normally (here: a spool of
real frames, of which the first `last + 1 - first` are accumulated) — not
of the first accumulated frame. -/
theorem averun_template_is_last (twait tmax : ℚ) (first last : Nat)
    (fs : List MCCD) (h1 : fs ≠ []) (h2 : first ≤ last) :
    averun_template twait tmax first last (fs.map some) =
      Except.ok ((fs.take (last + 1 - first)).getLastD (MCCD.mk [])) := by
  unfold averun_template averun_loop
  rw [averun_go_all_some twait tmax last fs [] first 0 none h2]
  have hne : fs.isEmpty = false := by
    cases fs with
    | nil => exact absurd rfl h1
    | cons a l => rfl
  have hk : last + 1 - first ≠ 0 := by omega
  simp [template_of, hne]
  exact ⟨hk, h1⟩

/-- Witness for C2's amended theorem: a two-frame run with `first = 1`,
`last = 2` uses frame 2 — the last accumulated frame — as the template. -/
theorem averun_template_is_last_witness :
    ([exF1, exF2] : List MCCD) ≠ [] ∧ 1 ≤ 2 ∧
    averun_template 1 3 1 2 ([exF1, exF2].map some) =
      Except.ok ((([exF1, exF2] : List MCCD).take (2 + 1 - 1)).getLastD (MCCD.mk [])) :=
  ⟨by simp, by norm_num,
   averun_template_is_last 1 3 1 2 [exF1, exF2] (by simp) (by norm_num)⟩

/-- C2 (counterexample): in a two-frame run whose frames differ in the
validity flag of CCD `"2"` (true in frame 1, false in frame 2), the written
output carries frame 2's flag — the template is a copy of the last
accumulated frame, not of the first, whose flag is true.  (CCD `"1"`'s
output data is the median of both frames; CCD `"2"`'s is frame 1's data
alone, since frame 2's CCD `"2"` is excluded as invalid.) -/
theorem averun_template_not_first :
    averun_run 1 3 1 2 [some exF1, some exF2] none =
      Except.ok (MCCD.mk
        [("1", CCD.mk [("E", Window.mk [[3/2, 5/2], [7/2, 9/2]])] true),
         ("2", CCD.mk [("E", Window.mk [[10, 0], [0, 0]])] false)]) ∧
    (lookupA exF1.ccds "2").map CCD.is_data = some true := by
  constructor
  · simp [averun_run, averun_loop, averun_go, hang_about, averun_post,
      template_of, averun_bias, collectCCDs, collectStep, dictAppend,
      checkValid, averunCombine, combineCCD, combineWindow, cropEntry, mapE,
    foldE, labels,
      npStack, npMedianAxis0, npMedian, shape, exF1, exF2, exCCD, exWin, lookupA,
      List.mapIdx_cons, List.mapIdx_nil,
      List.insertionSort, List.orderedInsert]
    norm_num
  · simp [exF1, exCCD, exWin, lookupA]

/-! ### Association-list and traversal lemmas -/

theorem lookupA_isSome_iff {α : Type} (l : List (String × α)) (k : String) :
    (lookupA l k).isSome ↔ k ∈ l.map Prod.fst := by
  induction l with
  | nil => simp [lookupA]
  | cons p l ih =>
    by_cases h : p.1 = k
    · simp [lookupA, h]
    · simp [lookupA, h, ih, Ne.symm h]

theorem lookupA_map_val {α β : Type} (g : String → α → β)
    (l : List (String × α)) (k : String) :
    lookupA (l.map (fun p => (p.1, g p.1 p.2))) k = (lookupA l k).map (g k) := by
  induction l with
  | nil => simp [lookupA]
  | cons p l ih =>
    by_cases h : p.1 = k
    · subst h; simp [lookupA]
    · simp [lookupA, h, ih]

theorem lookupA_map_rel {α β γ : Type} (g : α → γ) (h : β → γ) :
    ∀ (l₁ : List (String × α)) (l₂ : List (String × β)),
      l₁.map (fun p => (p.1, g p.2)) = l₂.map (fun p => (p.1, h p.2)) →
      ∀ k, (lookupA l₁ k).map g = (lookupA l₂ k).map h
  | [], [], _, k => by simp [lookupA]
  | [], q :: l₂, heq, k => by simp at heq
  | p :: l₁, [], heq, k => by simp at heq
  | p :: l₁, q :: l₂, heq, k => by
    simp only [List.map_cons, List.cons.injEq, Prod.mk.injEq] at heq
    obtain ⟨⟨hk, hv⟩, hrest⟩ := heq
    by_cases hh : p.1 = k
    · simp [lookupA, hh, hk ▸ hh, hv]
    · simp [lookupA, hh, hk ▸ hh, lookupA_map_rel g h l₁ l₂ hrest k]

theorem lookupA_of_mem_nodup {α : Type} (l : List (String × α)) (p : String × α)
    (hnd : (l.map Prod.fst).Nodup) (hm : p ∈ l) : lookupA l p.1 = some p.2 := by
  induction l with
  | nil => cases hm
  | cons q l ih =>
    rcases List.mem_cons.mp hm with rfl | hm
    · simp [lookupA]
    · have hne : q.1 ≠ p.1 := by
        intro h
        exact (List.nodup_cons.mp hnd).1
          (h ▸ List.mem_map_of_mem Prod.fst hm)
      simp [lookupA, hne, ih (List.nodup_cons.mp hnd).2 hm]

theorem mapE_ok_of_forall {α β : Type} (g : α → Except PyErr β) (g' : α → β)
    (l : List α) (h : ∀ a ∈ l, g a = .ok (g' a)) : mapE g l = .ok (l.map g') := by
  induction l with
  | nil => simp [mapE]
  | cons a l ih =>
    simp [mapE, h a (List.mem_cons_self a l),
      ih (fun x hx => h x (List.mem_cons_of_mem a hx))]

/-! ### Characterisation of the collection loop -/

theorem map_update_fst {β : Type} (d : List (String × β))
    (u : String × β → String × β) (hu : ∀ e, (u e).1 = e.1) :
    (d.map u).map Prod.fst = d.map Prod.fst := by
  rw [List.map_map]
  exact List.map_congr_left (fun e _ => hu e)

theorem map_update_id {β : Type} (d : List (String × β)) (k : String)
    (v : β → β) (hk : k ∉ d.map Prod.fst) :
    d.map (fun e => if e.1 = k then (e.1, v e.2) else e) = d := by
  induction d with
  | nil => rfl
  | cons q d ih =>
    simp only [List.map_cons, List.mem_cons, not_or] at hk ⊢
    rw [if_neg (by simpa using fun h => hk.1 h.symm), ih hk.2]

theorem dictAppend_eq_of_nodup (d : List (String × List CCD)) (k : String)
    (v : CCD) (hk : k ∈ d.map Prod.fst) (hnd : (d.map Prod.fst).Nodup) :
    dictAppend d k v =
      .ok (d.map (fun e => if e.1 = k then (e.1, e.2 ++ [v]) else e)) := by
  induction d with
  | nil => simp at hk
  | cons q d ih =>
    obtain ⟨k', vs⟩ := q
    simp only [List.map_cons] at hnd
    by_cases h : k' = k
    · subst h
      have hnotin : k' ∉ d.map Prod.fst := (List.nodup_cons.mp hnd).1
      simp [dictAppend, map_update_id d k' (fun vs => vs ++ [v]) hnotin]
    · have hkd : k ∈ d.map Prod.fst := by
        have hk' := hk
        simp only [List.map_cons, List.mem_cons] at hk'
        rcases hk' with h1 | h1
        · exact absurd h1.symm h
        · exact h1
      simp [dictAppend, h, ih hkd (List.nodup_cons.mp hnd).2]

theorem frameContribs_nil (bias : Option MCCD) (c : String) :
    frameContribs bias [] c = [] := rfl

theorem frameContribs_cons (bias : Option MCCD) (p : String × CCD)
    (cl : List (String × CCD)) (c : String) :
    frameContribs bias (p :: cl) c =
      (if p.1 = c ∧ p.2.is_data = true then [biasAdjust bias p.1 p.2] else []) ++
        frameContribs bias cl c := by
  by_cases h : p.1 = c ∧ p.2.is_data = true <;>
    simp [frameContribs, List.filterMap_cons, h]

theorem collectStep_invalid (bias : Option MCCD) (d : List (String × List CCD))
    (p : String × CCD) (hp : p.2.is_data = false) :
    collectStep bias d p = .ok d := by
  simp [collectStep, hp]

theorem collectStep_valid (bias : Option MCCD) (d : List (String × List CCD))
    (p : String × CCD) (hp : p.2.is_data = true)
    (hb : ∀ b, bias = some b → (lookupA b.ccds p.1).isSome) :
    collectStep bias d p = dictAppend d p.1 (biasAdjust bias p.1 p.2) := by
  cases bias with
  | none => simp [collectStep, hp, biasAdjust]
  | some b =>
    obtain ⟨bc, hbc⟩ := Option.isSome_iff_exists.mp (hb b rfl)
    simp [collectStep, hp, biasAdjust, hbc]

theorem foldE_collectStep_eq (bias : Option MCCD) (cl : List (String × CCD)) :
    ∀ d : List (String × List CCD),
      (∀ p ∈ cl, p.1 ∈ d.map Prod.fst) →
      (d.map Prod.fst).Nodup →
      (∀ p ∈ cl, p.2.is_data = true → ∀ b, bias = some b →
        (lookupA b.ccds p.1).isSome) →
      foldE (collectStep bias) d cl =
        .ok (d.map (fun e => (e.1, e.2 ++ frameContribs bias cl e.1))) := by
  induction cl with
  | nil =>
    intro d _ _ _
    simp [foldE, frameContribs]
  | cons p cl ih =>
    intro d hkeys hnd hbias
    cases hp : p.2.is_data with
    | false =>
      rw [foldE, collectStep_invalid bias d p hp, ok_bind,
        ih d (fun q hq => hkeys q (List.mem_cons_of_mem p hq)) hnd
          (fun q hq => hbias q (List.mem_cons_of_mem p hq))]
      refine congrArg Except.ok (List.map_congr_left (fun e _ => ?_))
      rw [frameContribs_cons]
      simp [hp]
    | true =>
      rw [foldE,
        collectStep_valid bias d p hp (hbias p (List.mem_cons_self p cl) hp),
        dictAppend_eq_of_nodup d p.1 _ (hkeys p (List.mem_cons_self p cl)) hnd,
        ok_bind]
      have hu : ∀ e : String × List CCD,
          ((fun e => if e.1 = p.1 then (e.1, e.2 ++ [biasAdjust bias p.1 p.2]) else e) e).1
            = e.1 := by
        intro e; by_cases h : e.1 = p.1 <;> simp [h]
      rw [ih _ (fun q hq => by
            rw [map_update_fst d _ hu]
            exact hkeys q (List.mem_cons_of_mem p hq))
          (by rw [map_update_fst d _ hu]; exact hnd)
          (fun q hq => hbias q (List.mem_cons_of_mem p hq))]
      refine congrArg Except.ok ?_
      rw [List.map_map]
      refine List.map_congr_left (fun e _ => ?_)
      by_cases h : e.1 = p.1
      · simp only [Function.comp, if_pos h, frameContribs_cons]
        rw [if_pos ⟨h.symm, hp⟩]
        simp [List.append_assoc]
      · simp only [Function.comp, if_neg h, frameContribs_cons]
        rw [if_neg (by intro hc; exact h hc.1.symm)]
        simp

theorem foldE_frames_eq (bias : Option MCCD) (fs : List MCCD) :
    ∀ d : List (String × List CCD),
      (∀ f ∈ fs, ∀ p ∈ f.ccds, p.1 ∈ d.map Prod.fst) →
      (d.map Prod.fst).Nodup →
      (∀ f ∈ fs, ∀ p ∈ f.ccds, p.2.is_data = true → ∀ b, bias = some b →
        (lookupA b.ccds p.1).isSome) →
      foldE (fun d mccd => foldE (collectStep bias) d mccd.ccds) d fs =
        .ok (d.map (fun e =>
          (e.1, e.2 ++ (fs.map (fun f => frameContribs bias f.ccds e.1)).flatten))) := by
  induction fs with
  | nil =>
    intro d _ _ _
    simp [foldE]
  | cons f fs ih =>
    intro d hkeys hnd hbias
    rw [foldE,
      foldE_collectStep_eq bias f.ccds d (hkeys f (List.mem_cons_self f fs)) hnd
        (hbias f (List.mem_cons_self f fs)),
      ok_bind]
    have hu : ∀ e : String × List CCD,
        ((fun e => (e.1, e.2 ++ frameContribs bias f.ccds e.1)) e).1 = e.1 :=
      fun e => rfl
    rw [ih _ (fun g hg q hq => by
          rw [map_update_fst d _ hu]
          exact hkeys g (List.mem_cons_of_mem f hg) q hq)
        (by rw [map_update_fst d _ hu]; exact hnd)
        (fun g hg => hbias g (List.mem_cons_of_mem f hg))]
    refine congrArg Except.ok ?_
    rw [List.map_map]
    refine List.map_congr_left (fun e _ => ?_)
    simp [List.append_assoc]

theorem collectCCDs_eq_pure (template : MCCD) (mccds : List MCCD)
    (bias : Option MCCD)
    (hkeys : ∀ f ∈ mccds, ∀ p ∈ f.ccds, p.1 ∈ labels template)
    (hnd : (labels template).Nodup)
    (hbias : ∀ f ∈ mccds, ∀ p ∈ f.ccds, p.2.is_data = true → ∀ b, bias = some b →
      (lookupA b.ccds p.1).isSome) :
    collectCCDs template mccds bias = .ok (collectPure template mccds bias) := by
  have hinit : (template.ccds.map (fun p => (p.1, ([] : List CCD)))).map Prod.fst
      = labels template := by
    rw [List.map_map]; rfl
  unfold collectCCDs
  rw [foldE_frames_eq bias mccds _ (fun f hf p hp => by
        rw [hinit]; exact hkeys f hf p hp)
      (by rw [hinit]; exact hnd) hbias]
  refine congrArg Except.ok ?_
  unfold collectPure
  rw [List.map_map]
  rfl

theorem lookupA_collectPure (template : MCCD) (mccds : List MCCD)
    (bias : Option MCCD) (c : String) :
    lookupA (collectPure template mccds bias) c =
      (lookupA template.ccds c).map
        (fun _ => (mccds.map (fun f => frameContribs bias f.ccds c)).flatten) := by
  unfold collectPure
  exact lookupA_map_val
    (fun k _ => (mccds.map (fun f => frameContribs bias f.ccds k)).flatten)
    template.ccds c

theorem frameContribs_of_not_mem (bias : Option MCCD)
    (cl : List (String × CCD)) (c : String) (h : c ∉ cl.map Prod.fst) :
    frameContribs bias cl c = [] := by
  induction cl with
  | nil => rfl
  | cons p cl ih =>
    simp only [List.map_cons, List.mem_cons, not_or] at h
    rw [frameContribs_cons, if_neg (fun hc => h.1 hc.1.symm), ih h.2,
      List.nil_append]

theorem frameContribs_eq_lookup (bias : Option MCCD) (cl : List (String × CCD))
    (c : String) (hnd : (cl.map Prod.fst).Nodup) :
    frameContribs bias cl c =
      match lookupA cl c with
      | some cc => if cc.is_data then [biasAdjust bias c cc] else []
      | none => [] := by
  induction cl with
  | nil => rfl
  | cons p cl ih =>
    simp only [List.map_cons, List.nodup_cons] at hnd
    by_cases h : p.1 = c
    · subst h
      have hnotin : p.1 ∉ cl.map Prod.fst := hnd.1
      rw [frameContribs_cons, frameContribs_of_not_mem bias cl p.1 hnotin,
        List.append_nil]
      cases hp : p.2.is_data with
      | false => simp [lookupA, hp]
      | true => simp [lookupA, hp]
    · rw [frameContribs_cons, if_neg (fun hc => h hc.1), List.nil_append,
        ih hnd.2]
      simp [lookupA, h]

theorem flatten_frameContribs_eq_validCCDs (bias : Option MCCD)
    (mccds : List MCCD) (c : String)
    (hnd : ∀ f ∈ mccds, (f.ccds.map Prod.fst).Nodup) :
    (mccds.map (fun f => frameContribs bias f.ccds c)).flatten =
      validCCDs bias mccds c := by
  induction mccds with
  | nil => rfl
  | cons f fs ih =>
    rw [List.map_cons, List.flatten_cons,
      frameContribs_eq_lookup bias f.ccds c (hnd f (List.mem_cons_self f fs)),
      ih (fun g hg => hnd g (List.mem_cons_of_mem f hg))]
    unfold validCCDs
    rw [List.filterMap_cons]
    cases hl : lookupA f.ccds c with
    | none => simp
    | some cc => cases hc : cc.is_data <;> simp [hc]

/-! ### C6: per-CCD validity filtering -/

/-- C6: under identical CCD labelling (every accumulated frame's CCD labels
drawn from the template's, duplicate-free), the per-CCD combination set
built by the collection loop for each template label is exactly that
label's (bias-adjusted) CCDs from the frames in which `is_data()` is true,
in frame order: a CCD invalid in one frame is excluded from that CCD's set
while the same frame's other CCDs remain eligible through their own
labels. -/
theorem averun_ccd_filtering (template : MCCD) (mccds : List MCCD)
    (bias : Option MCCD)
    (hkeys : ∀ f ∈ mccds, ∀ p ∈ f.ccds, p.1 ∈ labels template)
    (hnd : (labels template).Nodup)
    (hfnd : ∀ f ∈ mccds, (f.ccds.map Prod.fst).Nodup)
    (hbias : ∀ f ∈ mccds, ∀ p ∈ f.ccds, p.2.is_data = true → ∀ b, bias = some b →
      (lookupA b.ccds p.1).isSome) :
    collectCCDs template mccds bias = .ok (collectPure template mccds bias) ∧
    ∀ c ∈ labels template,
      lookupA (collectPure template mccds bias) c =
        some (validCCDs bias mccds c) := by
  refine ⟨collectCCDs_eq_pure template mccds bias hkeys hnd hbias,
    fun c hc => ?_⟩
  rw [lookupA_collectPure]
  obtain ⟨tc, htc⟩ :=
    Option.isSome_iff_exists.mp ((lookupA_isSome_iff template.ccds c).mpr hc)
  rw [htc]
  simp only [Option.map_some']
  exact congrArg some (flatten_frameContribs_eq_validCCDs bias mccds c hfnd)

/-- Witness for C6 on the 2-CCD, 3-frame fixture with CCD `"2"` invalid in
frame 2 only: its combination set is frames 1 and 3's CCD `"2"` alone, and
the full run's output for CCD `"2"` is the median of frames 1 and 3 only
(`(10+70)/2 = 40`), while CCD `"1"` medians all three frames. -/
theorem averun_ccd_filtering_witness :
    (collectCCDs exF3 [exF1, exF2, exF3] none =
        .ok (collectPure exF3 [exF1, exF2, exF3] none) ∧
      ∀ c ∈ labels exF3,
        lookupA (collectPure exF3 [exF1, exF2, exF3] none) c =
          some (validCCDs none [exF1, exF2, exF3] c)) ∧
    validCCDs none [exF1, exF2, exF3] "2" =
      [exCCD 10 0 0 0 true, exCCD 70 0 0 0 true] ∧
    averun_run 1 3 1 3 [some exF1, some exF2, some exF3] none =
      .ok (MCCD.mk
        [("1", CCD.mk [("E", Window.mk [[2, 3], [4, 5]])] true),
         ("2", CCD.mk [("E", Window.mk [[40, 0], [0, 0]])] true)]) := by
  refine ⟨averun_ccd_filtering exF3 [exF1, exF2, exF3] none
      (by decide) (by decide) (by decide)
      (fun f _ p _ _ b hb => by cases hb), by decide, ?_⟩
  simp [averun_run, averun_loop, averun_go, hang_about, averun_post,
    template_of, averun_bias, collectCCDs, collectStep, dictAppend,
    checkValid, averunCombine, combineCCD, combineWindow, cropEntry, mapE,
    foldE, labels,
    npStack, npMedianAxis0, npMedian, shape, exF1, exF2, exF3, exCCD, exWin,
    lookupA,
    List.mapIdx_cons, List.mapIdx_nil,
    List.insertionSort, List.orderedInsert]
  norm_num

/-! ### C8: zero valid frames for a CCD -/

theorem checkValid_ok_forall (d : List (String × List CCD)) :
    ∀ cs : List String, checkValid d cs = .ok () →
      ∀ c ∈ cs, ∃ l, lookupA d c = some l ∧ l ≠ [] := by
  intro cs
  induction cs with
  | nil => intro _ c hc; cases hc
  | cons a cs ih =>
    intro h c hc
    simp only [checkValid] at h
    cases hla : lookupA d a with
    | none =>
      simp only [hla] at h
      exact Except.noConfusion h
    | some l =>
      simp only [hla] at h
      by_cases hl : l.length = 0
      · rw [if_pos hl] at h; exact Except.noConfusion h
      · rw [if_neg hl] at h
        rcases List.mem_cons.mp hc with rfl | hc2
        · exact ⟨l, hla, by simpa [List.length_eq_zero] using hl⟩
        · exact ih h c hc2

theorem checkValid_err (d : List (String × List CCD)) (c : String) :
    ∀ pre post : List String,
      (∀ c' ∈ pre, ∃ l, lookupA d c' = some l ∧ l ≠ []) →
      lookupA d c = some [] →
      checkValid d (pre ++ c :: post) =
        .error (.hipercamError ("found no valid frames for CCD " ++ c)) := by
  intro pre
  induction pre with
  | nil =>
    intro post _ he
    simp [checkValid, he]
  | cons a pre ih =>
    intro post hpre he
    obtain ⟨l, hl, hlne⟩ := hpre a (List.mem_cons_self a pre)
    have hrec := ih post (fun c' hc' => hpre c' (List.mem_cons_of_mem a hc')) he
    simp only [List.cons_append, checkValid, hl]
    rw [if_neg (by simpa [List.length_eq_zero] using hlne)]
    exact hrec

/-- C8: whenever the per-CCD buffers leave some template CCD label with an
empty combination set, `averun` fails with
`HipercamError('found no valid frames for CCD <label>')` naming the first
such label in template order; the check walks every template label before
any median computation, and the error precludes the write (an `.ok` result
is the only way a write happens in the embedding). -/
theorem averun_no_valid_frames (mccds : List MCCD)
    (lastVar : Option (Option MCCD)) (bias : Option MCCD) (t : MCCD)
    (bias2 : Option MCCD) (d : List (String × List CCD)) (c : String)
    (pre post : List String)
    (ht : template_of mccds lastVar = .ok t)
    (hb : averun_bias bias t = .ok bias2)
    (hd : collectCCDs t mccds bias2 = .ok d)
    (hsplit : labels t = pre ++ c :: post)
    (hpre : ∀ c' ∈ pre, ∃ l, lookupA d c' = some l ∧ l ≠ [])
    (he : lookupA d c = some []) :
    averun_post mccds lastVar bias =
      .error (.hipercamError ("found no valid frames for CCD " ++ c)) := by
  simp only [averun_post, ht, ok_bind, hb, hd, hsplit,
    checkValid_err d c pre post hpre he, error_bind]

/-- Witness for C8: a single-frame run whose only frame has CCD `"2"`
invalid fails naming CCD `"2"`, with CCD `"1"`'s non-empty buffer passing
the check first. -/
theorem averun_no_valid_frames_witness :
    lookupA [("1", [exCCD 1 2 3 4 true]), ("2", ([] : List CCD))] "2" =
      some [] ∧
    averun_post [exFI] (some (some exFI)) none =
      .error (.hipercamError ("found no valid frames for CCD " ++ "2")) :=
  ⟨by decide,
   averun_no_valid_frames [exFI] (some (some exFI)) none exFI none
     [("1", [exCCD 1 2 3 4 true]), ("2", [])] "2" ["1"] []
     (by decide) rfl (by decide) (by decide)
     (fun c' hc' => by
       have : c' = "1" := by simpa using hc'
       subst this
       exact ⟨[exCCD 1 2 3 4 true], by decide, by decide⟩)
     (by decide)⟩

/-! ### Lemmas towards the median-output theorem -/

theorem npStack_ok (arrs : List Arr) (s : List Nat) (hne : arrs ≠ [])
    (hsh : ∀ x ∈ arrs, shape x = s) : npStack arrs = .ok arrs := by
  cases arrs with
  | nil => exact absurd rfl hne
  | cons a rest =>
    have ha : shape a = s := hsh a (List.mem_cons_self a rest)
    have hall : (rest.all fun b => shape b == shape a) = true := by
      rw [List.all_eq_true]
      intro b hb
      rw [beq_iff_eq, hsh b (List.mem_cons_of_mem a hb), ha]
    simp [npStack, hall]

theorem shape_subArr (a b : Arr) (h : shape b = shape a) :
    shape (subArr a b) = shape a := by
  unfold shape subArr at *
  induction a generalizing b with
  | nil => simp
  | cons ra a ih =>
    cases b with
    | nil => simp at h
    | cons rb b =>
      simp only [List.zipWith_cons_cons, List.map_cons, List.cons.injEq] at h ⊢
      refine ⟨?_, ih b h.2⟩
      rw [List.length_zipWith, h.1, Nat.min_self]

theorem lookupA_subCCD (c b : CCD) (w : String) :
    lookupA (subCCD c b).wins w =
      (lookupA c.wins w).map (fun v =>
        match lookupA b.wins w with
        | some bw => Window.mk (subArr v.data bw.data)
        | none => v) := by
  unfold subCCD
  exact lookupA_map_val
    (fun k v =>
      match lookupA b.wins k with
      | some bw => Window.mk (subArr v.data bw.data)
      | none => v) c.wins w

theorem mem_validCCDs (bias : Option MCCD) (mccds : List MCCD) (c : String)
    (cc : CCD) :
    cc ∈ validCCDs bias mccds c ↔
      ∃ f ∈ mccds, ∃ fc, lookupA f.ccds c = some fc ∧ fc.is_data = true ∧
        cc = biasAdjust bias c fc := by
  unfold validCCDs
  rw [List.mem_filterMap]
  constructor
  · rintro ⟨f, hf, hg⟩
    cases hl : lookupA f.ccds c with
    | none =>
      simp only [hl] at hg
      exact Option.noConfusion hg
    | some fc =>
      simp only [hl] at hg
      by_cases hd : fc.is_data = true
      · rw [if_pos hd] at hg
        exact ⟨f, hf, fc, hl, hd, (Option.some.inj hg).symm⟩
      · rw [if_neg hd] at hg; cases hg
  · rintro ⟨f, hf, fc, hl, hd, rfl⟩
    exact ⟨f, hf, by simp only [hl, if_pos hd]⟩

theorem cropEntry_ok (b : MCCD) (p : String × CCD) (bc : CCD)
    (hbc : lookupA b.ccds p.1 = some bc)
    (hw : ∀ q ∈ p.2.wins, (lookupA bc.wins q.1).isSome) :
    cropEntry b p = .ok
      (p.1, CCD.mk
        (p.2.wins.map (fun q => (q.1, (lookupA bc.wins q.1).getD (Window.mk []))))
        bc.is_data) := by
  unfold cropEntry
  simp only [hbc, ok_bind]
  rw [mapE_ok_of_forall _
    (fun q => (q.1, (lookupA bc.wins q.1).getD (Window.mk []))) p.2.wins
    (fun q hq => by
      obtain ⟨bw, hbw⟩ := Option.isSome_iff_exists.mp (hw q hq)
      simp [hbw]),
    ok_bind]

theorem cropFrame_ok (b t : MCCD)
    (h : ∀ p ∈ t.ccds, ∃ bc, lookupA b.ccds p.1 = some bc ∧
      ∀ q ∈ p.2.wins, (lookupA bc.wins q.1).isSome) :
    cropFrame b t = .ok (cropPure b t) := by
  unfold cropFrame cropPure
  rw [mapE_ok_of_forall (cropEntry b)
    (fun p =>
      let bc := (lookupA b.ccds p.1).getD (CCD.mk [] true)
      (p.1, CCD.mk
        (p.2.wins.map (fun q => (q.1, (lookupA bc.wins q.1).getD (Window.mk []))))
        bc.is_data))
    t.ccds
    (fun p hp => by
      obtain ⟨bc, hbc, hw⟩ := h p hp
      rw [cropEntry_ok b p bc hbc hw]
      simp [hbc]),
    ok_bind]

theorem lookupA_cropPure (b t : MCCD) (c : String) :
    lookupA (cropPure b t).ccds c =
      (lookupA t.ccds c).map (fun tc =>
        let bc := (lookupA b.ccds c).getD (CCD.mk [] true)
        CCD.mk
          (tc.wins.map (fun q => (q.1, (lookupA bc.wins q.1).getD (Window.mk []))))
          bc.is_data) := by
  unfold cropPure
  exact lookupA_map_val
    (fun k v =>
      let bc := (lookupA b.ccds k).getD (CCD.mk [] true)
      CCD.mk
        (v.wins.map (fun q => (q.1, (lookupA bc.wins q.1).getD (Window.mk []))))
        bc.is_data) t.ccds c

theorem labels_eq_of_frameShapes {f t : MCCD}
    (h : frameShapes f = frameShapes t) : labels f = labels t := by
  have := congrArg (List.map Prod.fst) h
  simpa [frameShapes, List.map_map, labels, Function.comp] using this

theorem ccdShapes_rel_of_frameShapes {f t : MCCD}
    (h : frameShapes f = frameShapes t) (c : String) :
    (lookupA f.ccds c).map ccdShapes = (lookupA t.ccds c).map ccdShapes :=
  lookupA_map_rel ccdShapes ccdShapes f.ccds t.ccds h c

theorem winShape_rel_of_ccdShapes {fc tc : CCD}
    (h : ccdShapes fc = ccdShapes tc) (w : String) :
    (lookupA fc.wins w).map (fun v => shape v.data) =
      (lookupA tc.wins w).map (fun v => shape v.data) :=
  lookupA_map_rel (fun v : Window => shape v.data) (fun v : Window => shape v.data)
    fc.wins tc.wins h w

theorem crop_hyp_of_shapes (b t : MCCD) (hnd : (labels t).Nodup)
    (hsh : frameShapes b = frameShapes t) :
    ∀ p ∈ t.ccds, ∃ bc, lookupA b.ccds p.1 = some bc ∧
      ∀ q ∈ p.2.wins, (lookupA bc.wins q.1).isSome := by
  intro p hp
  have hlk : lookupA t.ccds p.1 = some p.2 := lookupA_of_mem_nodup _ _ hnd hp
  have hrel := ccdShapes_rel_of_frameShapes hsh p.1
  rw [hlk] at hrel
  cases hlb : lookupA b.ccds p.1 with
  | none => rw [hlb] at hrel; cases hrel
  | some bc =>
    rw [hlb] at hrel
    refine ⟨bc, rfl, fun q hq => ?_⟩
    have hrel2 := winShape_rel_of_ccdShapes (Option.some.inj hrel) q.1
    have hqs : (lookupA p.2.wins q.1).isSome :=
      (lookupA_isSome_iff p.2.wins q.1).mpr (List.mem_map_of_mem Prod.fst hq)
    obtain ⟨tw, htw⟩ := Option.isSome_iff_exists.mp hqs
    rw [htw] at hrel2
    cases hlw : lookupA bc.wins q.1 with
    | none => rw [hlw] at hrel2; cases hrel2
    | some bw => rfl


theorem averun_post_ok_elim (mccds : List MCCD)
    (lastVar : Option (Option MCCD)) (bias : Option MCCD) (out : MCCD)
    (hok : averun_post mccds lastVar bias = .ok out) :
    ∃ t bias2 d, template_of mccds lastVar = .ok t ∧
      averun_bias bias t = .ok bias2 ∧
      collectCCDs t mccds bias2 = .ok d ∧
      checkValid d (labels t) = .ok () ∧
      averunCombine t d = .ok out := by
  unfold averun_post at hok
  cases h1 : template_of mccds lastVar with
  | error e => rw [h1, error_bind] at hok; cases hok
  | ok t =>
    rw [h1, ok_bind] at hok
    cases h2 : averun_bias bias t with
    | error e => rw [h2, error_bind] at hok; cases hok
    | ok bias2 =>
      rw [h2, ok_bind] at hok
      cases h3 : collectCCDs t mccds bias2 with
      | error e => rw [h3, error_bind] at hok; cases hok
      | ok d =>
        rw [h3, ok_bind] at hok
        cases h4 : checkValid d (labels t) with
        | error e => rw [h4, error_bind] at hok; cases hok
        | ok u =>
          cases u
          rw [h4, ok_bind] at hok
          exact ⟨t, bias2, d, rfl, h2, h3, h4, hok⟩

theorem combineWindow_ok (contribs : List CCD) (q : String × Window)
    (s : List Nat) (hne : contribs ≠ [])
    (hs : ∀ cc ∈ contribs, ∃ w, lookupA cc.wins q.1 = some w ∧
      shape w.data = s) :
    combineWindow contribs q = .ok (q.1, Window.mk (npMedianAxis0
      (contribs.map
        (fun cc => ((lookupA cc.wins q.1).getD (Window.mk [])).data)))) := by
  have harrs : mapE (fun c =>
      match lookupA c.wins q.1 with
      | some w => Except.ok w.data
      | none => Except.error (PyErr.keyError q.1)) contribs =
    .ok (contribs.map
      (fun cc => ((lookupA cc.wins q.1).getD (Window.mk [])).data)) := by
    apply mapE_ok_of_forall
    intro cc hcc
    obtain ⟨w, hw, _⟩ := hs cc hcc
    simp [hw]
  unfold combineWindow
  rw [harrs, ok_bind,
    npStack_ok _ s
      (by simpa using hne)
      (fun x hx => by
        obtain ⟨cc, hcc, hceq⟩ := List.mem_map.mp hx
        obtain ⟨w, hw, hws⟩ := hs cc hcc
        rw [← hceq, hw]
        simpa using hws),
    ok_bind]

theorem combineCCD_ok (d : List (String × List CCD)) (p : String × CCD)
    (l : List CCD) (hl : lookupA d p.1 = some l) (hne : l ≠ [])
    (hwin : ∀ q ∈ p.2.wins, ∃ s, ∀ cc ∈ l,
      ∃ w, lookupA cc.wins q.1 = some w ∧ shape w.data = s) :
    combineCCD d p = .ok
      (p.1, CCD.mk
        (p.2.wins.map (fun q =>
          (q.1, Window.mk (npMedianAxis0
            (l.map (fun cc => ((lookupA cc.wins q.1).getD (Window.mk [])).data))))))
        p.2.is_data) := by
  unfold combineCCD
  simp only [hl, ok_bind]
  rw [mapE_ok_of_forall (combineWindow l)
    (fun q => (q.1, Window.mk (npMedianAxis0
      (l.map (fun cc => ((lookupA cc.wins q.1).getD (Window.mk [])).data)))))
    p.2.wins
    (fun q hq => by
      obtain ⟨s, hs⟩ := hwin q hq
      exact combineWindow_ok l q s hne hs),
    ok_bind]

theorem averunCombine_ok (t : MCCD) (d : List (String × List CCD))
    (h : ∀ p ∈ t.ccds, ∃ l, lookupA d p.1 = some l ∧ l ≠ [] ∧
      ∀ q ∈ p.2.wins, ∃ s, ∀ cc ∈ l,
        ∃ w, lookupA cc.wins q.1 = some w ∧ shape w.data = s) :
    averunCombine t d = .ok (combinePure t d) := by
  unfold averunCombine combinePure
  rw [mapE_ok_of_forall (combineCCD d)
    (fun p => (p.1, CCD.mk (p.2.wins.map (fun q =>
        (q.1, Window.mk (npMedianAxis0
          (((lookupA d p.1).getD []).map
            (fun c => ((lookupA c.wins q.1).getD (Window.mk [])).data))))))
      p.2.is_data))
    t.ccds
    (fun p hp => by
      obtain ⟨l, hl, hne, hwin⟩ := h p hp
      rw [combineCCD_ok d p l hl hne hwin]
      simp [hl]),
    ok_bind]

theorem lookupA_collectPure_valid (t : MCCD) (mccds : List MCCD)
    (bias2 : Option MCCD)
    (hfnd : ∀ f ∈ mccds, (f.ccds.map Prod.fst).Nodup) :
    ∀ c ∈ labels t,
      lookupA (collectPure t mccds bias2) c =
        some (validCCDs bias2 mccds c) := by
  intro c hc
  rw [lookupA_collectPure]
  obtain ⟨tc, htc⟩ :=
    Option.isSome_iff_exists.mp ((lookupA_isSome_iff t.ccds c).mpr hc)
  rw [htc]
  simp only [Option.map_some']
  exact congrArg some (flatten_frameContribs_eq_validCCDs bias2 mccds c hfnd)

theorem validCCDs_window_facts (mccds : List MCCD) (t : MCCD)
    (bias2 : Option MCCD)
    (hlay : ∀ f ∈ mccds, frameShapes f = frameShapes t)
    (hb2 : ∀ c tc, lookupA t.ccds c = some tc → ∀ b2, bias2 = some b2 →
      ∃ bc, lookupA b2.ccds c = some bc ∧
        ∀ w tw, lookupA tc.wins w = some tw →
          ∃ bw, lookupA bc.wins w = some bw ∧ shape bw.data = shape tw.data) :
    ∀ c tc, lookupA t.ccds c = some tc → ∀ q ∈ tc.wins, ∃ s,
      ∀ cc ∈ validCCDs bias2 mccds c,
        ∃ w, lookupA cc.wins q.1 = some w ∧ shape w.data = s := by
  intro c tc htc q hq
  obtain ⟨tw, htw⟩ := Option.isSome_iff_exists.mp
    ((lookupA_isSome_iff tc.wins q.1).mpr (List.mem_map_of_mem Prod.fst hq))
  refine ⟨shape tw.data, fun cc hcc => ?_⟩
  obtain ⟨f, hf, fc, hlf, hdata, rfl⟩ :=
    (mem_validCCDs bias2 mccds c cc).mp hcc
  have hrel := ccdShapes_rel_of_frameShapes (hlay f hf) c
  rw [hlf, htc] at hrel
  have hcs : ccdShapes fc = ccdShapes tc := by simpa using hrel
  have hrel2 := winShape_rel_of_ccdShapes hcs q.1
  rw [htw] at hrel2
  cases hlfw : lookupA fc.wins q.1 with
  | none => rw [hlfw] at hrel2; cases hrel2
  | some fw =>
    rw [hlfw] at hrel2
    have hfws : shape fw.data = shape tw.data := by simpa using hrel2
    cases hb : bias2 with
    | none => exact ⟨fw, by simpa [biasAdjust] using hlfw, hfws⟩
    | some b2 =>
      obtain ⟨bc, hbc, hbwfun⟩ := hb2 c tc htc b2 hb
      obtain ⟨bw, hbw, hbws⟩ := hbwfun q.1 tw htw
      refine ⟨Window.mk (subArr fw.data bw.data), ?_, ?_⟩
      · simp only [biasAdjust, hbc, lookupA_subCCD, hlfw, hbw,
          Option.map_some']
      · rw [shape_subArr fw.data bw.data (hbws.trans hfws.symm), hfws]

theorem cropPure_window_facts (b t : MCCD) (hbs : frameShapes b = frameShapes t) :
    ∀ c tc, lookupA t.ccds c = some tc →
      ∃ bc, lookupA (cropPure b t).ccds c = some bc ∧
        ∀ w tw, lookupA tc.wins w = some tw →
          ∃ bw, lookupA bc.wins w = some bw ∧ shape bw.data = shape tw.data := by
  intro c tc htc
  have hrel := ccdShapes_rel_of_frameShapes hbs c
  rw [htc] at hrel
  cases hlb : lookupA b.ccds c with
  | none => rw [hlb] at hrel; cases hrel
  | some bc0 =>
    rw [hlb] at hrel
    have hcs : ccdShapes bc0 = ccdShapes tc := by simpa using hrel
    refine ⟨CCD.mk
        (tc.wins.map (fun q => (q.1, (lookupA bc0.wins q.1).getD (Window.mk []))))
        bc0.is_data, ?_, ?_⟩
    · rw [lookupA_cropPure, htc]
      simp [hlb]
    intro w tw htw
    have hlkw : lookupA
        (tc.wins.map
          (fun q => (q.1, (lookupA bc0.wins q.1).getD (Window.mk [])))) w =
        (lookupA tc.wins w).map
          (fun _ => (lookupA bc0.wins w).getD (Window.mk [])) :=
      lookupA_map_val (fun k _ => (lookupA bc0.wins k).getD (Window.mk []))
        tc.wins w
    have hrel2 := winShape_rel_of_ccdShapes hcs w
    rw [htw] at hrel2
    cases hlbw : lookupA bc0.wins w with
    | none => rw [hlbw] at hrel2; cases hrel2
    | some bw0 =>
      rw [hlbw] at hrel2
      refine ⟨bw0, ?_, by simpa using hrel2⟩
      simp only [hlb, Option.getD_some]
      rw [hlkw, htw]
      simp [hlbw]

theorem windowDataStack_crop (b t : MCCD) (mccds : List MCCD) (c : String)
    (tc : CCD) (w : String) (htc : lookupA t.ccds c = some tc)
    (hbs : frameShapes b = frameShapes t) (hw : w ∈ tc.wins.map Prod.fst) :
    (validCCDs (some (cropPure b t)) mccds c).map
        (fun cc => ((lookupA cc.wins w).getD (Window.mk [])).data) =
      windowDataStack (some b) mccds c w := by
  unfold windowDataStack validCCDs
  rw [List.map_filterMap, List.map_filterMap]
  apply List.filterMap_congr
  intro f _
  have hrel := ccdShapes_rel_of_frameShapes hbs c
  rw [htc] at hrel
  cases hlb : lookupA b.ccds c with
  | none => rw [hlb] at hrel; cases hrel
  | some bc0 =>
    rw [hlb] at hrel
    have hcs : ccdShapes bc0 = ccdShapes tc := by simpa using hrel
    obtain ⟨tw, htw⟩ := Option.isSome_iff_exists.mp
      ((lookupA_isSome_iff tc.wins w).mpr hw)
    have hrel2 := winShape_rel_of_ccdShapes hcs w
    rw [htw] at hrel2
    cases hlbw : lookupA bc0.wins w with
    | none => rw [hlbw] at hrel2; cases hrel2
    | some bw0 =>
      have hcropc : lookupA (cropPure b t).ccds c =
          some (CCD.mk
            (tc.wins.map
              (fun q => (q.1, (lookupA bc0.wins q.1).getD (Window.mk []))))
            bc0.is_data) := by
        rw [lookupA_cropPure, htc]
        simp [hlb]
      have hcropw : lookupA
          (tc.wins.map
            (fun q => (q.1, (lookupA bc0.wins q.1).getD (Window.mk [])))) w =
          some bw0 := by
        rw [lookupA_map_val (fun k _ => (lookupA bc0.wins k).getD (Window.mk []))
          tc.wins w, htw]
        simp [hlbw]
      cases hlf : lookupA f.ccds c with
      | none => rfl
      | some fc =>
        cases hd : fc.is_data with
        | false => simp [hd]
        | true =>
          simp [biasAdjust, hcropc, hlb, lookupA_subCCD, hcropw, hlbw]

theorem averun_median_core (mccds : List MCCD) (t : MCCD)
    (bias bias2 : Option MCCD) (d : List (String × List CCD)) (out : MCCD)
    (hlay : ∀ f ∈ mccds, frameShapes f = frameShapes t)
    (hnd : (labels t).Nodup)
    (hb2 : ∀ c tc, lookupA t.ccds c = some tc → ∀ b2, bias2 = some b2 →
      ∃ bc, lookupA b2.ccds c = some bc ∧
        ∀ w tw, lookupA tc.wins w = some tw →
          ∃ bw, lookupA bc.wins w = some bw ∧ shape bw.data = shape tw.data)
    (hstack : ∀ c tc, lookupA t.ccds c = some tc → ∀ w, w ∈ tc.wins.map Prod.fst →
      (validCCDs bias2 mccds c).map
          (fun cc => ((lookupA cc.wins w).getD (Window.mk [])).data) =
        windowDataStack bias mccds c w)
    (h3 : collectCCDs t mccds bias2 = .ok d)
    (h4 : checkValid d (labels t) = .ok ())
    (h5 : averunCombine t d = .ok out) :
    ∀ c tc, lookupA t.ccds c = some tc → ∀ w, w ∈ tc.wins.map Prod.fst →
      ∃ oc, lookupA out.ccds c = some oc ∧
        lookupA oc.wins w =
          some (Window.mk (npMedianAxis0 (windowDataStack bias mccds c w))) := by
  have hlab : ∀ f ∈ mccds, labels f = labels t :=
    fun f hf => labels_eq_of_frameShapes (hlay f hf)
  have hkeys : ∀ f ∈ mccds, ∀ p ∈ f.ccds, p.1 ∈ labels t := by
    intro f hf p hp
    rw [← hlab f hf]
    exact List.mem_map_of_mem Prod.fst hp
  have hfnd : ∀ f ∈ mccds, (f.ccds.map Prod.fst).Nodup := by
    intro f hf
    have h := hnd
    rw [← hlab f hf] at h
    exact h
  have hbias2ok : ∀ f ∈ mccds, ∀ p ∈ f.ccds, p.2.is_data = true →
      ∀ b2, bias2 = some b2 → (lookupA b2.ccds p.1).isSome := by
    intro f hf p hp _ b2 hb
    obtain ⟨tc, htc⟩ := Option.isSome_iff_exists.mp
      ((lookupA_isSome_iff t.ccds p.1).mpr (hkeys f hf p hp))
    obtain ⟨bc, hbc, _⟩ := hb2 p.1 tc htc b2 hb
    simp [hbc]
  have hcol := collectCCDs_eq_pure t mccds bias2 hkeys hnd hbias2ok
  rw [hcol] at h3
  have hd : d = collectPure t mccds bias2 := (Except.ok.inj h3).symm
  subst hd
  have hdc := lookupA_collectPure_valid t mccds bias2 hfnd
  have hval := checkValid_ok_forall (collectPure t mccds bias2) (labels t) h4
  have hwinfacts := validCCDs_window_facts mccds t bias2 hlay hb2
  have hcomb : averunCombine t (collectPure t mccds bias2) =
      .ok (combinePure t (collectPure t mccds bias2)) := by
    apply averunCombine_ok
    intro p hp
    have hmem : p.1 ∈ labels t := List.mem_map_of_mem Prod.fst hp
    have hlkt : lookupA t.ccds p.1 = some p.2 := lookupA_of_mem_nodup _ _ hnd hp
    obtain ⟨l', hl', hne'⟩ := hval p.1 hmem
    have hlv := hdc p.1 hmem
    have hleq : l' = validCCDs bias2 mccds p.1 := by
      rw [hlv] at hl'
      exact (Option.some.inj hl').symm
    subst hleq
    exact ⟨validCCDs bias2 mccds p.1, hlv, hne', hwinfacts p.1 p.2 hlkt⟩
  rw [hcomb] at h5
  have hout : out = combinePure t (collectPure t mccds bias2) :=
    (Except.ok.inj h5).symm
  subst hout
  intro c tc htc w hw
  have hmc : c ∈ labels t := by
    have hs : (lookupA t.ccds c).isSome := by rw [htc]; rfl
    exact (lookupA_isSome_iff t.ccds c).mp hs
  have h_oc : lookupA (combinePure t (collectPure t mccds bias2)).ccds c =
      some (CCD.mk (tc.wins.map (fun q =>
          (q.1, Window.mk (npMedianAxis0
            (((lookupA (collectPure t mccds bias2) c).getD []).map
              (fun cc => ((lookupA cc.wins q.1).getD (Window.mk [])).data))))))
        tc.is_data) := by
    unfold combinePure
    rw [lookupA_map_val (fun k v => CCD.mk (v.wins.map (fun q =>
        (q.1, Window.mk (npMedianAxis0
          (((lookupA (collectPure t mccds bias2) k).getD []).map
            (fun cc => ((lookupA cc.wins q.1).getD (Window.mk [])).data))))))
      v.is_data) t.ccds c, htc]
    rfl
  refine ⟨_, h_oc, ?_⟩
  rw [lookupA_map_val (fun k _ => Window.mk (npMedianAxis0
      (((lookupA (collectPure t mccds bias2) c).getD []).map
        (fun cc => ((lookupA cc.wins k).getD (Window.mk [])).data)))) tc.wins w]
  obtain ⟨tw, htw⟩ := Option.isSome_iff_exists.mp
    ((lookupA_isSome_iff tc.wins w).mpr hw)
  rw [htw]
  simp only [Option.map_some']
  refine congrArg some ?_
  rw [hdc c hmc]
  simp only [Option.getD_some]
  rw [hstack c tc htc w hw]

/-! ### C1: the median-combination output -/

/-- C1: for every run of `averun` that accumulates frames of identical
CCD/window layout (equal `frameShapes`, duplicate-free CCD labels, and a
bias — if supplied — of the same layout) and writes an output frame, the
pixel data of each window of the written frame is the element-wise median,
across the stack axis, of the corresponding windows of that CCD's
combination set (its valid, bias-adjusted contributors); `npMedian` takes
the average of the two middle values for an even count. -/
theorem averun_output_is_median (mccds : List MCCD)
    (lastVar : Option (Option MCCD)) (bias : Option MCCD) (t out : MCCD)
    (ht : lastVar = some (some t))
    (hlay : ∀ f ∈ mccds, frameShapes f = frameShapes t)
    (hnd : (labels t).Nodup)
    (hbias : bias = none ∨ ∃ b, bias = some b ∧ frameShapes b = frameShapes t)
    (hok : averun_post mccds lastVar bias = .ok out) :
    ∀ c tc, lookupA t.ccds c = some tc → ∀ w, w ∈ tc.wins.map Prod.fst →
      ∃ oc, lookupA out.ccds c = some oc ∧
        lookupA oc.wins w =
          some (Window.mk (npMedianAxis0 (windowDataStack bias mccds c w))) := by
  subst ht
  obtain ⟨t', bias2, d, h1, h2, h3, h4, h5⟩ :=
    averun_post_ok_elim mccds (some (some t)) bias out hok
  have hne : mccds.length ≠ 0 := by
    intro h0
    rw [template_of, if_pos h0] at h1
    exact Except.noConfusion h1
  have ht' : t' = t := by
    simp [template_of, hne] at h1
    exact h1.symm
  rw [ht'] at h2 h3 h4 h5
  rcases hbias with rfl | ⟨b, rfl, hbs⟩
  · have hb2 : bias2 = none := by
      simp [averun_bias] at h2
      exact h2.symm
    subst hb2
    exact averun_median_core mccds t none none d out hlay hnd
      (fun c tc _ b2 hb => Option.noConfusion hb)
      (fun c tc htc w hw => rfl)
      h3 h4 h5
  · have hcrop := cropFrame_ok b t (crop_hyp_of_shapes b t hnd hbs)
    have hb2 : bias2 = some (cropPure b t) := by
      rw [averun_bias, hcrop] at h2
      simp [Except.map] at h2
      exact h2.symm
    subst hb2
    exact averun_median_core mccds t (some b) (some (cropPure b t)) d out
      hlay hnd
      (fun c tc htc b2 hb => by
        have hb' : b2 = cropPure b t := (Option.some.inj hb).symm
        subst hb'
        exact cropPure_window_facts b t hbs c tc htc)
      (fun c tc htc w hw => windowDataStack_crop b t mccds c tc w htc hbs hw)
      h3 h4 h5

/-- Witness for C1: on the 3-frame, 2-by-2-window fixture (all frames valid
for CCD `"1"`) the written frame's CCD `"1"` window is the hand-computable
element-wise median `[[2, 3], [4, 5]]` of `[[1,2],[3,4]]`, `[[2,3],[4,5]]`
and `[[7,8],[9,10]]`. -/
theorem averun_output_is_median_witness :
    (∃ oc, lookupA
        (MCCD.mk
          [("1", CCD.mk [("E", Window.mk [[2, 3], [4, 5]])] true),
           ("2", CCD.mk [("E", Window.mk [[40, 0], [0, 0]])] true)]).ccds "1" =
          some oc ∧
      lookupA oc.wins "E" =
        some (Window.mk (npMedianAxis0
          (windowDataStack none [exF1, exF2, exF3] "1" "E")))) ∧
    npMedianAxis0 (windowDataStack none [exF1, exF2, exF3] "1" "E") =
      [[2, 3], [4, 5]] := by
  have hok : averun_post [exF1, exF2, exF3] (some (some exF3)) none =
      .ok (MCCD.mk
        [("1", CCD.mk [("E", Window.mk [[2, 3], [4, 5]])] true),
         ("2", CCD.mk [("E", Window.mk [[40, 0], [0, 0]])] true)]) := by
    simp [averun_post, template_of, averun_bias, collectCCDs, collectStep,
      dictAppend, checkValid, averunCombine, combineCCD, combineWindow,
      mapE, foldE, labels, npStack, npMedianAxis0, npMedian, shape,
      exF1, exF2, exF3, exCCD, exWin, lookupA,
      List.mapIdx_cons, List.mapIdx_nil,
      List.insertionSort, List.orderedInsert]
    norm_num
  refine ⟨averun_output_is_median [exF1, exF2, exF3] (some (some exF3)) none
      exF3 _ rfl (by decide) (by decide) (Or.inl rfl) hok "1"
      (exCCD 7 8 9 10 true) (by decide) "E" (by decide), ?_⟩
  decide

end Hipercam
